import Mathlib

/-!
Verification development for the Smart-Board backend's card
analysis/recommendation engine (`src/utils/recommendations.js`) and the
AI enrichment adapter (`src/utils/geminiAI.js`).

Modelling conventions:
* JS strings are Lean `String`s restricted to their character data; ASCII
  lowercasing models `String.prototype.toLowerCase`.
* A possibly-`undefined` string field is `Option String`; JS template-literal
  interpolation of `undefined` yields the literal text "undefined", which the
  model reproduces (`jsShow`).
* A JS `Date` produced by the parser always has its time set to 23:59:59.999
  local time, so a produced date is represented by the local epoch-day number
  (an `Int`, days since 1970-01-01 local); two produced dates have equal
  `getTime()` iff their day numbers are equal.
* JS floating-point numbers carrying similarity scores are modelled as `ℚ`
  (exact rationals); the default threshold literal `0.2` is `1/5`.
-/

/-- JS template-literal rendering of a possibly-undefined string:
`undefined` renders as the literal text "undefined". -/
def jsShow : Option String → String
  | none => "undefined"
  | some s => s

/-- The combined text `` `${card.title} ${card.description}` `` used by
`suggestListMovement` and `findRelatedCards`. -/
def combinedText (title description : Option String) : String :=
  jsShow title ++ " " ++ jsShow description

/-- ASCII model of `String.prototype.toLowerCase`. -/
def jsToLower (s : String) : String :=
  String.mk (s.data.map Char.toLower)

/-- Does `p` match at the head of the second list? -/
def matchesAt : List Char → List Char → Bool
  | [], _ => true
  | _ :: _, [] => false
  | p :: ps, c :: cs => p == c && matchesAt ps cs

/-- Substring occurrence: does `pat` occur contiguously anywhere in the list? -/
def containsSub (pat : List Char) : List Char → Bool
  | [] => matchesAt pat []
  | c :: cs => matchesAt pat (c :: cs) || containsSub pat cs

/-- Model of JS `String.prototype.includes`. -/
def jsIncludes (s sub : String) : Bool :=
  containsSub sub.data s.data

/-- Character class of the JS regex `\w` (ASCII word character). -/
def isWordChar (c : Char) : Bool :=
  c.isAlphanum || c == '_'

/-- Character class of the JS regex `\s` (ASCII whitespace). -/
def isSpaceChar (c : Char) : Bool :=
  c == ' ' || c == '\t' || c == '\n' || c == '\r'

/-- The per-character effect of `.replace(/[^\w\s]/g, ' ')`: every character
that is neither a word character nor whitespace becomes a space. -/
def normalizeChar (c : Char) : Char :=
  if !isWordChar c && !isSpaceChar c then ' ' else c

/-- Split into maximal runs of non-whitespace characters, modelling
`.split(/\s+/)`.  (JS additionally yields an empty fragment when the text
starts with whitespace; that fragment is removed by the later
`length > 2` filter, so it is omitted here.) -/
def wordsOfAux : List Char → List Char → List (List Char)
  | cur, [] => if cur.isEmpty then [] else [cur.reverse]
  | cur, c :: cs =>
    if isSpaceChar c then
      if cur.isEmpty then wordsOfAux [] cs else cur.reverse :: wordsOfAux [] cs
    else wordsOfAux (c :: cur) cs

def wordsOf (l : List Char) : List (List Char) :=
  wordsOfAux [] l

/-- The token list produced by
`text.toLowerCase().replace(/[^\w\s]/g, ' ').split(/\s+/)`. -/
def tokensOf (s : String) : List String :=
  (wordsOf ((jsToLower s).data.map normalizeChar)).map String.mk

/-- The fixed stop-word set of `extractWords`. -/
def stopWords : List String :=
  ["a", "an", "and", "are", "as", "at", "be", "by", "for", "from",
   "has", "he", "in", "is", "it", "its", "of", "on", "that", "the",
   "to", "was", "will", "with", "this", "but", "they", "have", "had",
   "what", "when", "where", "who", "which", "why", "how"]

/-- Function `extractWords` from `src/utils/recommendations.js`: meaningful-word set of
a text.  `undefined` (`none`) or empty text is falsy and yields the empty
set; otherwise tokenize and keep tokens longer than 2 characters that are
not stop words. -/
def extractWords (text : Option String) : Finset String :=
  match text with
  | none => ∅
  | some s =>
    if s.data.isEmpty then ∅
    else ((tokensOf s).filter
      (fun word => decide (2 < word.length) && !(stopWords.contains word))).toFinset

/-- Function `jaccardSimilarity` from `src/utils/recommendations.js`:
`|s₁ ∩ s₂| / |s₁ ∪ s₂|`, with the union-size-zero case special-cased to 0. -/
def jaccardSimilarity (set1 set2 : Finset String) : ℚ :=
  let intersection := set1 ∩ set2
  let union := set1 ∪ set2
  if union.card = 0 then 0 else (intersection.card : ℚ) / (union.card : ℚ)

/-- JS `Date.prototype.getDay` on a local epoch-day number:
1970-01-01 was a Thursday (`getDay() = 4`); Sunday is 0. -/
def jsGetDay (epochDay : Int) : Int :=
  (epochDay + 4) % 7

/-- Civil-calendar conversion, days → (year, month, day-of-month), for the
proleptic Gregorian calendar used by JS `Date` (local time).  Standard
era/year-of-era decomposition. -/
def civilFromDays (z0 : Int) : Int × Int × Int :=
  let z := z0 + 719468
  let era := Int.fdiv z 146097
  let doe := z - era * 146097
  let yoe := Int.fdiv (doe - Int.fdiv doe 1460 + Int.fdiv doe 36524 - Int.fdiv doe 146096) 365
  let y := yoe + era * 400
  let doy := doe - (365 * yoe + Int.fdiv yoe 4 - Int.fdiv yoe 100)
  let mp := Int.fdiv (5 * doy + 2) 153
  let d := doy - Int.fdiv (153 * mp + 2) 5 + 1
  let m := if mp < 10 then mp + 3 else mp - 9
  (if m ≤ 2 then y + 1 else y, m, d)

/-- Civil-calendar conversion, (year, month, day-of-month) → days.  The
formula is linear in `d` and accepts month 13, which makes it model the
normalization JS `Date.prototype.setMonth` performs on out-of-range
components. -/
def daysFromCivil (y0 m d : Int) : Int :=
  let y := if m ≤ 2 then y0 - 1 else y0
  let era := Int.fdiv y 400
  let yoe := y - era * 400
  let mp := if 2 < m then m - 3 else m + 9
  let doy := Int.fdiv (153 * mp + 2) 5 + d - 1
  let doe := yoe * 365 + Int.fdiv yoe 4 - Int.fdiv yoe 100 + doy
  era * 146097 + doe - 719468

/-- JS `d.setMonth(d.getMonth() + 1)` on a local epoch-day number: same
day-of-month in the next month, with calendar-overflow carry. -/
def nextMonthDay (z : Int) : Int :=
  match civilFromDays z with
  | (y, m, d) => daysFromCivil y (m + 1) d

/-- Maximal leading run of decimal digits, with the rest of the list. -/
def takeDigits : List Char → List Char × List Char
  | [] => ([], [])
  | c :: cs =>
    if c.isDigit then
      let r := takeDigits cs
      (c :: r.1, r.2)
    else ([], c :: cs)

/-- Match the regex `in (\d+) <unit>s?` at the head of the list, returning the
captured digit run.  (The optional trailing `s` does not affect whether a
match exists, so it is not inspected.) -/
def matchNumAt (unit : List Char) : List Char → Option (List Char)
  | 'i' :: 'n' :: ' ' :: rest =>
    let r := takeDigits rest
    if r.1.isEmpty then none
    else if matchesAt (' ' :: unit) r.2 then some r.1 else none
  | _ => none

/-- Leftmost match of `in (\d+) <unit>s?`, returning the captured digit run —
the semantics of `lowerText.match(/in (\d+) <unit>s?/)[1]`. -/
def findNum (unit : List Char) : List Char → Option (List Char)
  | [] => none
  | c :: cs =>
    match matchNumAt unit (c :: cs) with
    | some ds => some ds
    | none => findNum unit cs

/-- JS `parseInt` on a string of decimal digits. -/
def digitsToNat (ds : List Char) : Nat :=
  ds.foldl (fun acc c => acc * 10 + (c.toNat - 48)) 0

/-- Function `parseDateKeywords` from `src/utils/recommendations.js`.  Returns the
local epoch-day number of the suggested due date (whose time component is
always 23:59:59.999), or `none`.  `nowDay` is the epoch-day of the current
date. -/
def parseDateKeywords (text : Option String) (nowDay : Int) : Option Int :=
  match text with
  | none => none
  | some s =>
    if s.data.isEmpty then none
    else
      let lowerText := jsToLower s
      if jsIncludes lowerText "today" then some nowDay
      else if jsIncludes lowerText "tomorrow" then some (nowDay + 1)
      else if jsIncludes lowerText "next week" then some (nowDay + 7)
      else if jsIncludes lowerText "this week" || jsIncludes lowerText "end of week"
              || jsIncludes lowerText "eow" then
        let daysUntilFriday := (5 - jsGetDay nowDay + 7) % 7
        some (nowDay + (if daysUntilFriday = 0 then 7 else daysUntilFriday))
      else if jsIncludes lowerText "next month" then some (nextMonthDay nowDay)
      else
        match findNum ("day".data) lowerText.data with
        | some ds => some (nowDay + (digitsToNat ds : Int))
        | none =>
          match findNum ("week".data) lowerText.data with
          | some ds => some (nowDay + 7 * (digitsToNat ds : Int))
          | none => none

/-- Input view of a card record.  `_id` and `list` are Mongo ObjectIds,
modelled as `Nat` (the `.toString()` comparisons in the source are injective
on ids).  `title` and `description` may be `undefined`. -/
structure Card where
  _id : Nat
  title : Option String
  description : Option String
  list : Nat
  dueDate : Option Int
deriving DecidableEq, Repr

/-- Input view of a board list record. -/
structure BoardList where
  _id : Nat
  title : String
deriving DecidableEq, Repr

/-- Result record of `suggestListMovement`. -/
structure ListSuggestion where
  listId : Nat
  listTitle : String
  reason : String
deriving DecidableEq, Repr

/-- One entry of the fixed `listPatterns` table in `suggestListMovement`. -/
structure ListPattern where
  keywords : List String
  listTitles : List String
  reason : String
deriving DecidableEq, Repr

/-- The fixed keyword-category table of `suggestListMovement`, in its source
priority order. -/
def listPatterns : List ListPattern :=
  [{ keywords := ["started", "working on", "in progress", "doing", "currently"],
     listTitles := ["in progress", "doing", "work in progress", "wip"],
     reason := "Keywords suggest work has started" },
   { keywords := ["done", "completed", "finished", "complete"],
     listTitles := ["done", "completed", "finished"],
     reason := "Keywords suggest task is completed" },
   { keywords := ["testing", "test", "review", "qa"],
     listTitles := ["testing", "review", "qa", "quality assurance"],
     reason := "Keywords suggest task needs testing/review" },
   { keywords := ["blocked", "waiting", "stuck", "pending"],
     listTitles := ["blocked", "waiting", "on hold"],
     reason := "Keywords suggest task is blocked" }]

/-- The `for (const pattern of listPatterns)` loop body of
`suggestListMovement`: for the first pattern whose keyword occurs in `text`,
look up the first board list whose lowercased title contains one of the
pattern's fragments; return it when it differs from the card's current list,
otherwise fall through to the next pattern. -/
def suggestLoop (text : String) (cardList : Nat) (allLists : List BoardList) :
    List ListPattern → Option ListSuggestion
  | [] => none
  | p :: ps =>
    if p.keywords.any (fun keyword => jsIncludes text keyword) then
      match allLists.find?
          (fun l => p.listTitles.any (fun t => jsIncludes (jsToLower l.title) t)) with
      | some matchingList =>
        if matchingList._id ≠ cardList then
          some { listId := matchingList._id, listTitle := matchingList.title,
                 reason := p.reason }
        else suggestLoop text cardList allLists ps
      | none => suggestLoop text cardList allLists ps
    else suggestLoop text cardList allLists ps

/-- Function `suggestListMovement` from `src/utils/recommendations.js`. -/
def suggestListMovement (card : Card) (allLists : List BoardList) :
    Option ListSuggestion :=
  if allLists.isEmpty then none
  else
    suggestLoop (jsToLower (combinedText card.title card.description))
      card.list allLists listPatterns

/-- One category's outcome exactly as claim C5 describes it: the category
hits iff one of its trigger keywords occurs in the combined text AND the
first board list whose lowercased title contains one of its destination
fragments differs from the card's current list; the hit carries that list
and the category's reason. -/
def categoryResult (text : String) (cardList : Nat) (allLists : List BoardList)
    (p : ListPattern) : Option ListSuggestion :=
  if p.keywords.any (fun keyword => jsIncludes text keyword) then
    match allLists.find?
        (fun l => p.listTitles.any (fun u => jsIncludes (jsToLower l.title) u)) with
    | some l =>
      if l._id ≠ cardList then
        some { listId := l._id, listTitle := l.title, reason := p.reason }
      else none
    | none => none
  else none

/-- The list-movement matcher exactly as claim C5 describes it: scan the
categories in their fixed priority order and return the first category's
hit, falling through categories that do not hit (no trigger keyword, no
fragment-matching list, or a matched list equal to the current one). -/
def firstCategoryHit (text : String) (cardList : Nat) (allLists : List BoardList) :
    List ListPattern → Option ListSuggestion
  | [] => none
  | p :: ps =>
    match categoryResult text cardList allLists p with
    | some s => some s
    | none => firstCategoryHit text cardList allLists ps

/-- The card summary `{_id, title, list, dueDate}` carried by a related-card
result. -/
structure CardSummary where
  _id : Nat
  title : Option String
  list : Nat
  dueDate : Option Int
deriving DecidableEq, Repr

/-- One entry of the `findRelatedCards` result. -/
structure RelatedCardResult where
  card : CardSummary
  similarity : ℚ
deriving DecidableEq, Repr

def cardSummaryOf (c : Card) : CardSummary :=
  { _id := c._id, title := c.title, list := c.list, dueDate := c.dueDate }

/-- Stable insertion (descending by similarity): an element is placed before
the first strictly smaller score and after equal scores, reproducing the
stable JS `sort((a, b) => b.similarity - a.similarity)`. -/
def insertDesc (x : RelatedCardResult) : List RelatedCardResult → List RelatedCardResult
  | [] => [x]
  | y :: ys =>
    if y.similarity ≤ x.similarity then x :: y :: ys else y :: insertDesc x ys

/-- Stable descending sort by similarity. -/
def sortBySimilarityDesc : List RelatedCardResult → List RelatedCardResult
  | [] => []
  | x :: xs => insertDesc x (sortBySimilarityDesc xs)

/-- Function `findRelatedCards` from `src/utils/recommendations.js`. -/
def findRelatedCards (card : Card) (allCards : List Card)
    (limit : Nat := 5) (threshold : ℚ := 1/5) : List RelatedCardResult :=
  if allCards.isEmpty then []
  else
    let currentWords := extractWords (some (combinedText card.title card.description))
    if currentWords.card = 0 then []
    else
      let similarities :=
        ((allCards.filter (fun c => c._id ≠ card._id)).map
          (fun otherCard =>
            let otherWords :=
              extractWords (some (combinedText otherCard.title otherCard.description))
            ({ card := cardSummaryOf otherCard,
               similarity := jaccardSimilarity currentWords otherWords } :
              RelatedCardResult))).filter
          (fun item => threshold ≤ item.similarity)
      (sortBySimilarityDesc similarities).take limit

/-- The related-card pipeline exactly as the specification describes it
(claim C2), without the source's early returns: exclude the target by id,
score by Jaccard similarity of the tokenized word sets, keep scores at or
above the threshold, stable-sort descending, truncate to the limit. -/
def findRelatedCardsSpec (card : Card) (allCards : List Card)
    (limit : Nat) (threshold : ℚ) : List RelatedCardResult :=
  let currentWords := extractWords (some (combinedText card.title card.description))
  let similarities :=
    ((allCards.filter (fun c => c._id ≠ card._id)).map
      (fun otherCard =>
        let otherWords :=
          extractWords (some (combinedText otherCard.title otherCard.description))
        ({ card := cardSummaryOf otherCard,
           similarity := jaccardSimilarity currentWords otherWords } :
          RelatedCardResult))).filter
      (fun item => threshold ≤ item.similarity)
  (sortBySimilarityDesc similarities).take limit

/-- One suggested due date in an `AnalysisResult`. -/
structure DateSuggestion where
  date : Int
  source : String
  confidence : String
  reason : String
deriving DecidableEq, Repr

/-- One generic fallback tip. -/
structure SmartTip where
  icon : String
  tip : String
deriving DecidableEq, Repr

/-- The `analyzeCard` result record.  `smartTips` is `none` when the field is
absent from the JS object. -/
structure AnalysisResult where
  suggestedDueDates : List DateSuggestion
  suggestedListMovement : Option ListSuggestion
  relatedCards : List RelatedCardResult
  smartTips : Option (List SmartTip)
deriving DecidableEq, Repr

/-- The inner `extractDateReason` helper of `analyzeCard`.  Note its rule
order differs from `parseDateKeywords` ("tomorrow" is checked first) and its
this-week rule omits "eow"; both faithfully follow the source. -/
def extractDateReason (text : Option String) : String :=
  let lowerText := match text with | none => "" | some s => jsToLower s
  if jsIncludes lowerText "tomorrow" then "Mentioned \"tomorrow\""
  else if jsIncludes lowerText "today" then "Mentioned \"today\""
  else if jsIncludes lowerText "next week" then "Mentioned \"next week\""
  else if jsIncludes lowerText "this week" || jsIncludes lowerText "end of week" then
    "Mentioned \"this week\""
  else if jsIncludes lowerText "next month" then "Mentioned \"next month\""
  else
    match findNum ("day".data) lowerText.data with
    | some ds => "Mentioned \"in " ++ String.mk ds ++ " days\""
    | none =>
      match findNum ("week".data) lowerText.data with
      | some ds => "Mentioned \"in " ++ String.mk ds ++ " weeks\""
      | none => "Based on card content"

/-- The fixed fallback tips attached by `analyzeCard` when all three
suggestion categories are empty. -/
def defaultSmartTips : List SmartTip :=
  [{ icon := "💡",
     tip := "Add time keywords like \"tomorrow\", \"next week\", or \"in 3 days\" to get due date suggestions" },
   { icon := "🎯",
     tip := "Use keywords like \"started working\", \"completed\", or \"testing\" to get list movement suggestions" },
   { icon := "🔗",
     tip := "Create similar cards with related topics to see related card recommendations" }]

/-- Function `analyzeCard` from `src/utils/recommendations.js`.  `nowDay` is the local
epoch-day of the current date; related cards use the source's default limit 5
and threshold 0.2. -/
def analyzeCard (nowDay : Int) (card : Card) (boardCards : List Card)
    (boardLists : List BoardList) : AnalysisResult :=
  let titleDate := parseDateKeywords card.title nowDay
  let descriptionDate := parseDateKeywords card.description nowDay
  let titleSuggestions : List DateSuggestion :=
    match titleDate with
    | some d =>
      [{ date := d, source := "title", confidence := "high",
         reason := extractDateReason card.title }]
    | none => []
  let descSuggestions : List DateSuggestion :=
    match descriptionDate, titleDate with
    | some dd, none =>
      [{ date := dd, source := "description", confidence := "medium",
         reason := extractDateReason card.description }]
    | some dd, some td =>
      if dd ≠ td then
        [{ date := dd, source := "description", confidence := "medium",
           reason := extractDateReason card.description }]
      else []
    | none, _ => []
  let suggestedDueDates := titleSuggestions ++ descSuggestions
  let suggestedListMovement := suggestListMovement card boardLists
  let relatedCards := findRelatedCards card boardCards
  let smartTips :=
    if suggestedDueDates.isEmpty && suggestedListMovement.isNone
        && relatedCards.isEmpty then
      some defaultSmartTips
    else none
  { suggestedDueDates := suggestedDueDates,
    suggestedListMovement := suggestedListMovement,
    relatedCards := relatedCards,
    smartTips := smartTips }

/-- Date rule 1 of the specification's ordered table: "today". -/
def ruleToday (lt : String) (nowDay : Int) : Option Int :=
  if jsIncludes lt "today" then some nowDay else none

/-- Date rule 2: "tomorrow". -/
def ruleTomorrow (lt : String) (nowDay : Int) : Option Int :=
  if jsIncludes lt "tomorrow" then some (nowDay + 1) else none

/-- Date rule 3: "next week". -/
def ruleNextWeek (lt : String) (nowDay : Int) : Option Int :=
  if jsIncludes lt "next week" then some (nowDay + 7) else none

/-- Date rule 4: "this week" / "end of week" / "eow". -/
def ruleThisWeek (lt : String) (nowDay : Int) : Option Int :=
  if jsIncludes lt "this week" || jsIncludes lt "end of week" || jsIncludes lt "eow" then
    let daysUntilFriday := (5 - jsGetDay nowDay + 7) % 7
    some (nowDay + (if daysUntilFriday = 0 then 7 else daysUntilFriday))
  else none

/-- Date rule 5: "next month". -/
def ruleNextMonth (lt : String) (nowDay : Int) : Option Int :=
  if jsIncludes lt "next month" then some (nextMonthDay nowDay) else none

/-- Date rule 6: "in N day(s)". -/
def ruleInDays (lt : String) (nowDay : Int) : Option Int :=
  match findNum ("day".data) lt.data with
  | some ds => some (nowDay + (digitsToNat ds : Int))
  | none => none

/-- Date rule 7: "in N week(s)". -/
def ruleInWeeks (lt : String) (nowDay : Int) : Option Int :=
  match findNum ("week".data) lt.data with
  | some ds => some (nowDay + 7 * (digitsToNat ds : Int))
  | none => none

/-- First defined value of an ordered rule-result list. -/
def firstSome : List (Option Int) → Option Int
  | [] => none
  | o :: rest =>
    match o with
    | some v => some v
    | none => firstSome rest

/-- The date parser exactly as claim C3 describes it: the seven rules are
evaluated against the lowercased text in the fixed order and only the first
matching rule applies. -/
def parseDateSpec (text : String) (nowDay : Int) : Option Int :=
  let lt := jsToLower text
  firstSome
    [ruleToday lt nowDay, ruleTomorrow lt nowDay, ruleNextWeek lt nowDay,
     ruleThisWeek lt nowDay, ruleNextMonth lt nowDay, ruleInDays lt nowDay,
     ruleInWeeks lt nowDay]

/-- The span extracted by `text.match(/\x7b[\s\S]*\x7d/)` in
`getAISuggestions`: a greedy match running from the leftmost brace-open that
has a brace-close after it, to the last brace-close of the whole text. -/
def regexSpan (cs : List Char) : Option (List Char) :=
  match cs.findIdx? (fun c => c == '\x7b'), (cs.reverse.findIdx? (fun c => c == '\x7d')) with
  | some i, some jr =>
    let j := cs.length - 1 - jr
    if i < j then some ((cs.drop i).take (j - i + 1)) else none
  | _, _ => none

/-- Auxiliary scan for `firstBalancedSpan`: inside a block at nesting `depth`,
accumulate characters (reversed) until the block closes. -/
def balancedFrom (depth : Nat) (acc : List Char) : List Char → Option (List Char)
  | [] => none
  | c :: cs =>
    if c == '\x7b' then balancedFrom (depth + 1) (c :: acc) cs
    else if c == '\x7d' then
      if depth = 1 then some (c :: acc).reverse
      else balancedFrom (depth - 1) (c :: acc) cs
    else balancedFrom depth (c :: acc) cs

/-- Modelled from the spec: "extract the first balanced `\x7b...\x7d` block
from the free-form reply" — the span from the first brace-open to its
matching brace-close. -/
def firstBalancedSpan : List Char → Option (List Char)
  | [] => none
  | c :: cs =>
    if c == '\x7b' then balancedFrom 1 [c] cs else firstBalancedSpan cs

/-- Outcome of the external generative-text call in `getAISuggestions`: the
library call either throws (network/credential failure) or resolves with the
model's reply text. -/
inductive CallOutcome where
  | failure
  | success (text : String)
deriving DecidableEq, Repr

/-- The key guard `!process.env.GEMINI_API_KEY || process.env.GEMINI_API_KEY
=== 'undefined'`: unset, empty (falsy) or the literal string "undefined". -/
def keyMissing : Option String → Bool
  | none => true
  | some k => k.data.isEmpty || k == "undefined"

/-- Function `getAISuggestions` from `src/utils/geminiAI.js`, as a function of the
environment's API key, the outcome of the awaited external call, and the
behaviour of `JSON.parse` on the extracted span (`parseJson span = none`
models a parse exception, which the surrounding `try/catch` converts to
`null`).  The constructed prompt and the parsed payload shape are irrelevant
to claim C7 and are abstracted by the type `α`. -/
def getAISuggestions {α : Type} (apiKey : Option String) (outcome : CallOutcome)
    (parseJson : String → Option α) : Option α :=
  if keyMissing apiKey then none
  else
    match outcome with
    | CallOutcome.failure => none
    | CallOutcome.success text =>
      match regexSpan text.data with
      | none => none
      | some span => parseJson (String.mk span)

/-- Function `getCardInsights` from `src/utils/geminiAI.js`: wraps the suggestions
with `aiPowered: true`, and propagates `null`. -/
def getCardInsights {α : Type} (apiKey : Option String) (outcome : CallOutcome)
    (parseJson : String → Option α) : Option (Bool × α) :=
  match getAISuggestions apiKey outcome parseJson with
  | none => none
  | some s => some (true, s)

lemma jaccard_empty_left (t : Finset String) : jaccardSimilarity ∅ t = 0 := by
  simp [jaccardSimilarity]

/-- C9: `jaccardSimilarity` computes `|∩|/|∪|` with the two-empty-sets case
special-cased to 0; it is 1 on any nonempty set against itself, symmetric,
and always lies in `[0, 1]`. -/
theorem C9_jaccard_properties (s t : Finset String) :
    jaccardSimilarity ∅ ∅ = 0 ∧
    (s.Nonempty → jaccardSimilarity s s = 1) ∧
    jaccardSimilarity s t = jaccardSimilarity t s ∧
    0 ≤ jaccardSimilarity s t ∧ jaccardSimilarity s t ≤ 1 := by
  refine ⟨by simp [jaccardSimilarity], ?_, ?_, ?_, ?_⟩
  · intro hs
    have hc : 0 < s.card := hs.card_pos
    simp only [jaccardSimilarity, Finset.inter_self, Finset.union_self]
    rw [if_neg (by omega)]
    exact div_self (by exact_mod_cast hc.ne')
  · simp only [jaccardSimilarity]
    rw [Finset.inter_comm, Finset.union_comm]
  · simp only [jaccardSimilarity]
    split
    · exact le_refl 0
    · positivity
  · simp only [jaccardSimilarity]
    split
    · norm_num
    · rename_i h
      rw [div_le_one (by positivity)]
      exact_mod_cast Finset.card_le_card
        ((Finset.inter_subset_left).trans Finset.subset_union_left)

/-- Witness for C9: the nonempty-self-similarity clause at a concrete set. -/
theorem C9_witness : jaccardSimilarity {"alpha"} {"alpha"} = 1 :=
  (C9_jaccard_properties {"alpha"} {"alpha"}).2.1 (Finset.singleton_nonempty _)

/-- C10: `extractWords` keeps exactly the tokens of the
lowercase/replace/split pipeline that are longer than 2 characters and not
stop words; hence the resulting set contains no short token and no stop
word, and undefined or empty input yields the empty set. -/
theorem C10_tokenizer (t : Option String) (s : String) (w : String) :
    (w ∈ extractWords (some s) ↔
      (w ∈ tokensOf s ∧ 2 < w.length ∧ w ∉ stopWords)) ∧
    (w ∈ extractWords t → 2 < w.length ∧ w ∉ stopWords) ∧
    extractWords none = ∅ ∧ extractWords (some "") = ∅ := by
  have key : ∀ u : String, ¬u.data.isEmpty = true →
      (w ∈ extractWords (some u) ↔
        (w ∈ tokensOf u ∧ 2 < w.length ∧ w ∉ stopWords)) := by
    intro u hu
    simp only [extractWords, hu, if_false, List.mem_toFinset, List.mem_filter,
      Bool.and_eq_true, decide_eq_true_eq, Bool.not_eq_true',
      decide_eq_false_iff_not, Bool.false_eq_true, and_assoc]
    simp [List.elem_iff]
  have hempty : ∀ u : String, u.data.isEmpty = true → tokensOf u = [] := by
    intro u hu
    obtain ⟨d⟩ := u
    simp only [String.data] at hu
    rw [List.isEmpty_iff] at hu
    subst hu
    rfl
  refine ⟨?_, ?_, rfl, rfl⟩
  · by_cases hs : s.data.isEmpty
    · have h1 : extractWords (some s) = ∅ := by simp [extractWords, hs]
      rw [h1, hempty s hs]
      simp
    · exact key s hs
  · intro hw
    match t with
    | none => simp [extractWords] at hw
    | some u =>
      by_cases hu : u.data.isEmpty
      · simp [extractWords, hu] at hw
      · exact ((key u hu).mp hw).2

/-- Witness for C10: the filter clause applied to a concrete token. -/
theorem C10_witness :
    2 < ("alpha" : String).length ∧ ("alpha" : String) ∉ stopWords :=
  (C10_tokenizer (some "alpha") "x" "alpha").2.1 (by decide)

/-- C1: `analyzeCard` attaches `smartTips` — and then exactly the fixed list
of three generic tips — if and only if the due-date suggestions, the list
movement and the related cards are all empty. -/
theorem C1_smartTips_iff (nowDay : Int) (card : Card) (boardCards : List Card)
    (boardLists : List BoardList) :
    ((analyzeCard nowDay card boardCards boardLists).smartTips = some defaultSmartTips ↔
      ((analyzeCard nowDay card boardCards boardLists).suggestedDueDates = [] ∧
       (analyzeCard nowDay card boardCards boardLists).suggestedListMovement = none ∧
       (analyzeCard nowDay card boardCards boardLists).relatedCards = [])) ∧
    ((analyzeCard nowDay card boardCards boardLists).smartTips = some defaultSmartTips ∨
      (analyzeCard nowDay card boardCards boardLists).smartTips = none) ∧
    defaultSmartTips.length = 3 := by
  have key : (analyzeCard nowDay card boardCards boardLists).smartTips =
      if ((analyzeCard nowDay card boardCards boardLists).suggestedDueDates.isEmpty
          && (analyzeCard nowDay card boardCards boardLists).suggestedListMovement.isNone
          && (analyzeCard nowDay card boardCards boardLists).relatedCards.isEmpty) = true
        then some defaultSmartTips else none := rfl
  refine ⟨?_, ?_, rfl⟩ <;>
    (by_cases h1 : (analyzeCard nowDay card boardCards boardLists).suggestedDueDates = [] <;>
     by_cases h2 : (analyzeCard nowDay card boardCards boardLists).suggestedListMovement = none <;>
     by_cases h3 : (analyzeCard nowDay card boardCards boardLists).relatedCards = [] <;>
     simp [key, h1, h2, h3, List.isEmpty_iff, Option.isNone_iff_eq_none])

/-- C6: `analyzeCard` includes the title-derived date (confidence high)
whenever the title parses, includes the description-derived date (confidence
medium) exactly when the description parses and either no title date exists
or the two timestamps differ, and in particular a card whose title and
description yield the same timestamp produces exactly one date suggestion. -/
theorem C6_dueDate_dedup (nowDay : Int) (card : Card) (boardCards : List Card)
    (boardLists : List BoardList) :
    ((analyzeCard nowDay card boardCards boardLists).suggestedDueDates.map
        (fun x => (x.date, x.source, x.confidence)) =
      (match parseDateKeywords card.title nowDay with
       | some d => [(d, "title", "high")]
       | none => []) ++
      (match parseDateKeywords card.description nowDay,
             parseDateKeywords card.title nowDay with
       | some dd, none => [(dd, "description", "medium")]
       | some dd, some td =>
         if dd ≠ td then [(dd, "description", "medium")] else []
       | none, _ => [])) ∧
    (∀ d, parseDateKeywords card.title nowDay = some d →
      parseDateKeywords card.description nowDay = some d →
      (analyzeCard nowDay card boardCards boardLists).suggestedDueDates.length = 1) := by
  constructor
  · simp only [analyzeCard]
    cases htd : parseDateKeywords card.title nowDay <;>
      cases hdd : parseDateKeywords card.description nowDay <;>
        simp [htd, hdd] <;> split_ifs <;> simp
  · intro d h1 h2
    simp [analyzeCard, h1, h2]

/-- Witness for C6: a card saying "tomorrow" in both title and description
gets exactly one due-date suggestion. -/
theorem C6_witness :
    (analyzeCard 0 ⟨1, some "tomorrow", some "tomorrow", 0, none⟩ []
        []).suggestedDueDates.length = 1 :=
  (C6_dueDate_dedup 0 ⟨1, some "tomorrow", some "tomorrow", 0, none⟩ [] []).2 1
    (by decide) (by decide)

/-- C3: `parseDateKeywords` evaluates its rules in the fixed order — today,
tomorrow, next week, this week/end of week/eow, next month, "in N days",
"in N weeks" — and only the first matching rule applies; in particular any
text containing both "today" and "next week" yields today's date (at end of
day). -/
theorem C3_rule_order (t : String) (nowDay : Int) :
    parseDateKeywords (some t) nowDay = parseDateSpec t nowDay ∧
    (jsIncludes (jsToLower t) "today" = true →
      jsIncludes (jsToLower t) "next week" = true →
      parseDateKeywords (some t) nowDay = some nowDay) := by
  constructor
  · by_cases he : t.data.isEmpty
    · obtain ⟨d⟩ := t
      simp only [String.data] at he
      rw [List.isEmpty_iff] at he
      subst he
      rfl
    · simp only [Bool.not_eq_true] at he
      simp only [parseDateKeywords, parseDateSpec, firstSome, ruleToday, ruleTomorrow,
        ruleNextWeek, ruleThisWeek, ruleNextMonth, ruleInDays, ruleInWeeks, he,
        Bool.false_eq_true, if_false]
      split_ifs <;>
        first
          | rfl
          | (cases hfd : findNum ("day".data) (jsToLower t).data <;>
              cases hfw : findNum ("week".data) (jsToLower t).data <;>
              simp [hfd, hfw])
  · intro h1 h2
    by_cases he : t.data.isEmpty
    · exfalso
      obtain ⟨d⟩ := t
      simp only [String.data] at he
      rw [List.isEmpty_iff] at he
      subst he
      simp [jsIncludes, jsToLower, containsSub, matchesAt] at h1
    · simp only [Bool.not_eq_true] at he
      simp [parseDateKeywords, he, h1]

/-- Witness for C3: the precedence clause at a concrete text and date. -/
theorem C3_witness :
    parseDateKeywords (some "today and next week") 0 = some 0 :=
  (C3_rule_order "today and next week" 0).2 (by decide) (by decide)

/-- C4: when the text matches the this-week/end-of-week/eow rule and no
earlier rule, the parser returns the coming Friday (at end of day): a Friday
strictly after today and at most seven days away, and exactly seven days
away when today itself is a Friday. -/
theorem C4_end_of_week (t : String) (nowDay : Int)
    (hmatch : (jsIncludes (jsToLower t) "this week"
        || jsIncludes (jsToLower t) "end of week"
        || jsIncludes (jsToLower t) "eow") = true)
    (h1 : jsIncludes (jsToLower t) "today" = false)
    (h2 : jsIncludes (jsToLower t) "tomorrow" = false)
    (h3 : jsIncludes (jsToLower t) "next week" = false) :
    ∃ r, parseDateKeywords (some t) nowDay = some r ∧
      jsGetDay r = 5 ∧ nowDay < r ∧ r ≤ nowDay + 7 ∧
      (jsGetDay nowDay = 5 → r = nowDay + 7) := by
  by_cases he : t.data.isEmpty
  · exfalso
    obtain ⟨d⟩ := t
    simp only [String.data] at he
    rw [List.isEmpty_iff] at he
    subst he
    simp [jsIncludes, jsToLower, containsSub, matchesAt] at hmatch
  · simp only [Bool.not_eq_true] at he
    refine ⟨nowDay + (if (5 - jsGetDay nowDay + 7) % 7 = 0 then 7
        else (5 - jsGetDay nowDay + 7) % 7), ?_, ?_, ?_, ?_, ?_⟩
    · simp [parseDateKeywords, he, h1, h2, h3, hmatch]
    · unfold jsGetDay
      generalize hd : (nowDay + 4) % 7 = d
      by_cases hz : (5 - d + 7) % 7 = 0 <;> simp [hz] <;> omega
    · unfold jsGetDay
      generalize hd : (nowDay + 4) % 7 = d
      by_cases hz : (5 - d + 7) % 7 = 0 <;> simp [hz] <;> omega
    · unfold jsGetDay
      generalize hd : (nowDay + 4) % 7 = d
      by_cases hz : (5 - d + 7) % 7 = 0 <;> simp [hz] <;> omega
    · intro hfri
      unfold jsGetDay at hfri ⊢
      rw [hfri]
      norm_num

/-- Witness for C4: the text "eow" on a Thursday (epoch day 0). -/
theorem C4_witness :
    ∃ r, parseDateKeywords (some "eow") 0 = some r ∧
      jsGetDay r = 5 ∧ (0 : Int) < r ∧ r ≤ (0 : Int) + 7 ∧
      (jsGetDay 0 = 5 → r = (0 : Int) + 7) :=
  C4_end_of_week "eow" 0 (by decide) (by decide) (by decide) (by decide)

lemma filter_map_filter_nil {α β : Type} (q : α → Bool) (f : α → β) (p : β → Bool)
    (h : ∀ x, p (f x) = false) (l : List α) :
    ((l.filter q).map f).filter p = [] := by
  induction l with
  | nil => rfl
  | cons a l ih =>
    by_cases hq : q a <;> simp [List.filter_cons, hq, ih, h]

lemma findRelatedCardsSpec_empty_words (card : Card) (allCards : List Card)
    (limit : Nat) (threshold : ℚ) (hpos : 0 < threshold)
    (hempty : extractWords (some (combinedText card.title card.description)) = ∅) :
    findRelatedCardsSpec card allCards limit threshold = [] := by
  simp only [findRelatedCardsSpec, hempty]
  rw [filter_map_filter_nil]
  · simp [sortBySimilarityDesc]
  · intro x
    simp [jaccard_empty_left, decide_eq_false_iff_not, not_le, hpos]

/-- C2 counterexample: at threshold 0 and a target card with an empty word
set, the source returns `[]` (early return on `currentWords.size === 0`)
while the claimed pipeline keeps the zero-similarity candidate. -/
theorem C2_counterexample :
    findRelatedCards ⟨1, some "", some "", 10, none⟩
        [⟨2, some "alpha", some "beta", 11, none⟩] 5 0 = [] ∧
    findRelatedCardsSpec ⟨1, some "", some "", 10, none⟩
        [⟨2, some "alpha", some "beta", 11, none⟩] 5 0 =
      [{ card := { _id := 2, title := some "alpha", list := 11, dueDate := none },
         similarity := 0 }] := by
  constructor
  · decide
  · have h1 : extractWords (some (combinedText (some "") (some ""))) = ∅ := by decide
    simp only [findRelatedCardsSpec, h1, jaccard_empty_left]
    norm_num [List.filter_cons, sortBySimilarityDesc, insertDesc, cardSummaryOf]

/-- C2 (amended): for every positive threshold, `findRelatedCards` equals
the specified pipeline — exclude the target by id, score every remaining
card by Jaccard similarity of the tokenized word sets, keep scores at or
above the threshold, sort descending with ties in source order, truncate to
the limit, and carry only the `{_id, title, list, dueDate}` summary with the
score. -/
theorem C2_related_pipeline (card : Card) (allCards : List Card)
    (limit : Nat) (threshold : ℚ) (hpos : 0 < threshold) :
    findRelatedCards card allCards limit threshold =
      findRelatedCardsSpec card allCards limit threshold := by
  by_cases hne : allCards.isEmpty
  · rw [List.isEmpty_iff] at hne
    subst hne
    simp [findRelatedCards, findRelatedCardsSpec, sortBySimilarityDesc]
  · simp only [Bool.not_eq_true] at hne
    by_cases hw : (extractWords (some (combinedText card.title card.description))).card = 0
    · have hcode : findRelatedCards card allCards limit threshold = [] := by
        simp only [findRelatedCards, hne, Bool.false_eq_true, if_false]
        rw [if_pos hw]
      rw [hcode,
        findRelatedCardsSpec_empty_words card allCards limit threshold hpos
          (Finset.card_eq_zero.mp hw)]
    · simp only [findRelatedCards, findRelatedCardsSpec, hne, Bool.false_eq_true,
        if_false]
      rw [if_neg hw]

/-- Witness for C2 (amended): the pipeline equality at the default limit and
threshold. -/
theorem C2_witness :
    findRelatedCards ⟨1, some "alpha beta", some "", 10, none⟩
        [⟨2, some "alpha gamma", some "", 11, none⟩] 5 (1/5) =
      findRelatedCardsSpec ⟨1, some "alpha beta", some "", 10, none⟩
        [⟨2, some "alpha gamma", some "", 11, none⟩] 5 (1/5) :=
  C2_related_pipeline ⟨1, some "alpha beta", some "", 10, none⟩
    [⟨2, some "alpha gamma", some "", 11, none⟩] 5 (1/5) (by norm_num)

lemma suggestLoop_some_not_current (text : String) (cardList : Nat)
    (allLists : List BoardList) :
    ∀ ps s, suggestLoop text cardList allLists ps = some s → s.listId ≠ cardList := by
  intro ps
  induction ps with
  | nil => intro s h; simp [suggestLoop] at h
  | cons p ps ih =>
    intro s h
    simp only [suggestLoop] at h
    split at h
    · split at h
      · split at h
        · cases h
          assumption
        · exact ih s h
      · exact ih s h
    · exact ih s h

lemma suggestLoop_some_provenance (text : String) (cardList : Nat)
    (allLists : List BoardList) :
    ∀ ps s, suggestLoop text cardList allLists ps = some s →
      ∃ l ∈ allLists, s.listId = l._id ∧ s.listTitle = l.title ∧
        ∃ p ∈ ps, s.reason = p.reason ∧
          p.keywords.any (fun keyword => jsIncludes text keyword) = true ∧
          p.listTitles.any (fun u => jsIncludes (jsToLower l.title) u) = true := by
  intro ps
  induction ps with
  | nil => intro s h; simp [suggestLoop] at h
  | cons p ps ih =>
    intro s h
    have weaken : (∃ l ∈ allLists, s.listId = l._id ∧ s.listTitle = l.title ∧
        ∃ q ∈ ps, s.reason = q.reason ∧
          q.keywords.any (fun keyword => jsIncludes text keyword) = true ∧
          q.listTitles.any (fun u => jsIncludes (jsToLower l.title) u) = true) →
        ∃ l ∈ allLists, s.listId = l._id ∧ s.listTitle = l.title ∧
        ∃ q ∈ p :: ps, s.reason = q.reason ∧
          q.keywords.any (fun keyword => jsIncludes text keyword) = true ∧
          q.listTitles.any (fun u => jsIncludes (jsToLower l.title) u) = true := by
      rintro ⟨l, hl, h1, h2, q, hq, h3⟩
      exact ⟨l, hl, h1, h2, q, List.mem_cons_of_mem p hq, h3⟩
    simp only [suggestLoop] at h
    split at h
    · rename_i hk
      split at h
      · rename_i l hfind
        split at h
        · cases h
          exact ⟨l, List.mem_of_find?_eq_some hfind, rfl, rfl, p,
            List.mem_cons_self p ps, rfl, hk, by simpa using List.find?_some hfind⟩
        · exact weaken (ih s h)
      · exact weaken (ih s h)
    · exact weaken (ih s h)

lemma suggestLoop_none_of_all_current (text : String) (cardList : Nat)
    (allLists : List BoardList) :
    ∀ ps,
      (∀ p ∈ ps, p.keywords.any (fun keyword => jsIncludes text keyword) = true →
        ∀ l, allLists.find?
            (fun l => p.listTitles.any (fun u => jsIncludes (jsToLower l.title) u)) = some l →
          l._id = cardList) →
      suggestLoop text cardList allLists ps = none := by
  intro ps
  induction ps with
  | nil => intro _; rfl
  | cons p ps ih =>
    intro h
    simp only [suggestLoop]
    split
    · rename_i hk
      split
      · rename_i l hfind
        have hcur := h p (List.mem_cons_self p ps) hk l hfind
        rw [if_neg (by simp [hcur])]
        exact ih (fun q hq => h q (List.mem_cons_of_mem p hq))
      · exact ih (fun q hq => h q (List.mem_cons_of_mem p hq))
    · exact ih (fun q hq => h q (List.mem_cons_of_mem p hq))

lemma suggestLoop_eq_firstCategoryHit (text : String) (cardList : Nat)
    (allLists : List BoardList) :
    ∀ ps, suggestLoop text cardList allLists ps =
      firstCategoryHit text cardList allLists ps := by
  intro ps
  induction ps with
  | nil => rfl
  | cons p ps ih =>
    by_cases hk : p.keywords.any (fun keyword => jsIncludes text keyword)
    · cases hfind : allLists.find?
          (fun l => p.listTitles.any (fun u => jsIncludes (jsToLower l.title) u)) with
      | none =>
        simp only [suggestLoop, firstCategoryHit, categoryResult, hk, if_true, hfind]
        exact ih
      | some l =>
        by_cases hid : l._id ≠ cardList
        · simp [suggestLoop, firstCategoryHit, categoryResult, hk, hfind, hid]
        · simp only [suggestLoop, firstCategoryHit, categoryResult, hk, if_true, hfind,
            hid, if_false]
          exact ih
    · simp only [Bool.not_eq_true] at hk
      simp only [suggestLoop, firstCategoryHit, categoryResult, hk, Bool.false_eq_true,
        if_false]
      exact ih

lemma firstCategoryHit_some_of_hit (text : String) (cardList : Nat)
    (allLists : List BoardList) :
    ∀ ps p, p ∈ ps →
      p.keywords.any (fun keyword => jsIncludes text keyword) = true →
      ∀ l, allLists.find?
          (fun l => p.listTitles.any (fun u => jsIncludes (jsToLower l.title) u)) = some l →
        l._id ≠ cardList →
        ∃ s, firstCategoryHit text cardList allLists ps = some s := by
  intro ps
  induction ps with
  | nil => intro p hp; simp at hp
  | cons q ps ih =>
    intro p hp hk l hfind hid
    cases hcat : categoryResult text cardList allLists q with
    | some s => exact ⟨s, by simp [firstCategoryHit, hcat]⟩
    | none =>
      rcases List.mem_cons.mp hp with rfl | hp2
      · exfalso
        simp [categoryResult, hk, hfind, hid] at hcat
      · obtain ⟨s, hs⟩ := ih p hp2 hk l hfind hid
        exact ⟨s, by simp [firstCategoryHit, hcat, hs]⟩

/-- C5: `suggestListMovement` implements exactly the claimed fixed-priority
scan — it equals the first-hit evaluation of the four categories in source
order, where a category hits iff a trigger keyword occurs in the combined
text and the first fragment-matching board list differs from the card's
current list (a matched list equal to the current one falls through).
Consequently a suggestion is returned whenever some triggered category has a
non-current first matching list; any returned suggestion differs from the
current list and carries a triggered category's reason for a
fragment-matching board list; and nothing is returned when no category
matches or every matched candidate equals the current list. -/
theorem C5_listMovement (card : Card) (allLists : List BoardList) :
    (suggestListMovement card allLists =
      (if allLists.isEmpty then none
       else firstCategoryHit (jsToLower (combinedText card.title card.description))
         card.list allLists listPatterns)) ∧
    (∀ s, suggestListMovement card allLists = some s →
      s.listId ≠ card.list ∧
      ∃ l ∈ allLists, s.listId = l._id ∧ s.listTitle = l.title ∧
        ∃ p ∈ listPatterns, s.reason = p.reason ∧
          p.keywords.any (fun keyword =>
            jsIncludes (jsToLower (combinedText card.title card.description)) keyword) = true ∧
          p.listTitles.any (fun u => jsIncludes (jsToLower l.title) u) = true) ∧
    (allLists.isEmpty = false →
      ∀ p ∈ listPatterns,
        p.keywords.any (fun keyword =>
          jsIncludes (jsToLower (combinedText card.title card.description)) keyword) = true →
        ∀ l, allLists.find?
            (fun l => p.listTitles.any (fun u => jsIncludes (jsToLower l.title) u)) = some l →
          l._id ≠ card.list →
          ∃ s, suggestListMovement card allLists = some s) ∧
    ((∀ p ∈ listPatterns,
        p.keywords.any (fun keyword =>
          jsIncludes (jsToLower (combinedText card.title card.description)) keyword) = true →
        ∀ l, allLists.find?
            (fun l => p.listTitles.any (fun u => jsIncludes (jsToLower l.title) u)) = some l →
          l._id = card.list) →
      suggestListMovement card allLists = none) := by
  by_cases he : allLists.isEmpty
  · refine ⟨by simp [suggestListMovement, he], ?_, ?_, ?_⟩
    · intro s h
      simp [suggestListMovement, he] at h
    · intro h3
      rw [he] at h3
      simp at h3
    · intro _
      simp [suggestListMovement, he]
  · simp only [Bool.not_eq_true] at he
    have heq : suggestListMovement card allLists =
        firstCategoryHit (jsToLower (combinedText card.title card.description))
          card.list allLists listPatterns := by
      simp only [suggestListMovement, he, Bool.false_eq_true, if_false]
      exact suggestLoop_eq_firstCategoryHit _ _ _ listPatterns
    refine ⟨by simp [heq, he], ?_, ?_, ?_⟩
    · intro s h
      have h2 : suggestLoop (jsToLower (combinedText card.title card.description))
          card.list allLists listPatterns = some s := by
        simpa [suggestListMovement, he] using h
      exact ⟨suggestLoop_some_not_current _ _ _ listPatterns s h2,
        suggestLoop_some_provenance _ _ _ listPatterns s h2⟩
    · intro _ p hp hk l hfind hid
      obtain ⟨s, hs⟩ := firstCategoryHit_some_of_hit _ _ _ listPatterns p hp hk l hfind hid
      refine ⟨s, ?_⟩
      rw [heq]
      exact hs
    · intro h
      simp only [suggestListMovement, he, Bool.false_eq_true, if_false]
      exact suggestLoop_none_of_all_current _ _ _ listPatterns h

/-- Witness for C5: a "done" card on a board with a distinct "Done" list. -/
theorem C5_witness :
    (⟨11, "Done", "Keywords suggest task is completed"⟩ : ListSuggestion).listId ≠
        (⟨1, some "done task xyz", none, 10, none⟩ : Card).list ∧
      ∃ l ∈ [(⟨11, "Done"⟩ : BoardList)],
        (⟨11, "Done", "Keywords suggest task is completed"⟩ : ListSuggestion).listId = l._id ∧
        (⟨11, "Done", "Keywords suggest task is completed"⟩ : ListSuggestion).listTitle = l.title ∧
        ∃ p ∈ listPatterns,
          (⟨11, "Done", "Keywords suggest task is completed"⟩ : ListSuggestion).reason = p.reason ∧
          p.keywords.any (fun keyword =>
            jsIncludes (jsToLower (combinedText
              (⟨1, some "done task xyz", none, 10, none⟩ : Card).title
              (⟨1, some "done task xyz", none, 10, none⟩ : Card).description)) keyword) = true ∧
          p.listTitles.any (fun u => jsIncludes (jsToLower l.title) u) = true :=
  (C5_listMovement ⟨1, some "done task xyz", none, 10, none⟩ [⟨11, "Done"⟩]).2.1
    ⟨11, "Done", "Keywords suggest task is completed"⟩ (by decide)

/-- C7 counterexample: on a reply holding two JSON objects, the adapter's
regex hands `JSON.parse` the greedy span from the first brace to the LAST
brace — not the first balanced block the claim describes. -/
theorem C7_counterexample :
    getAISuggestions (some "key")
        (CallOutcome.success "\x7b\"a\": 1\x7d and \x7b\"b\": 2\x7d")
        (fun s => some s) =
      some "\x7b\"a\": 1\x7d and \x7b\"b\": 2\x7d" ∧
    firstBalancedSpan ("\x7b\"a\": 1\x7d and \x7b\"b\": 2\x7d").data =
      some ("\x7b\"a\": 1\x7d").data ∧
    ("\x7b\"a\": 1\x7d and \x7b\"b\": 2\x7d" : String) ≠ "\x7b\"a\": 1\x7d" := by
  refine ⟨by decide, by decide, by decide⟩

/-- C7 (amended): the adapter extracts the greedy first-brace-to-last-brace
span of the reply and parses it; it returns `none` (never an error) when the
service key is unset/empty/"undefined", when the external call fails, or
when the reply has no such span or the span fails to parse, and
`getCardInsights` propagates `none`. -/
theorem C7_absorbs_failures {α : Type} (apiKey : Option String)
    (outcome : CallOutcome) (parseJson : String → Option α) :
    (keyMissing apiKey = true → getAISuggestions apiKey outcome parseJson = none) ∧
    (outcome = CallOutcome.failure → getAISuggestions apiKey outcome parseJson = none) ∧
    (∀ text, outcome = CallOutcome.success text → regexSpan text.data = none →
      getAISuggestions apiKey outcome parseJson = none) ∧
    (∀ text span, outcome = CallOutcome.success text → regexSpan text.data = some span →
      keyMissing apiKey = false →
      getAISuggestions apiKey outcome parseJson = parseJson (String.mk span)) ∧
    (getAISuggestions apiKey outcome parseJson = none →
      getCardInsights apiKey outcome parseJson = none) := by
  refine ⟨?_, ?_, ?_, ?_, ?_⟩
  · intro hk
    simp [getAISuggestions, hk]
  · intro ho
    subst ho
    simp [getAISuggestions]
  · intro text ho hspan
    subst ho
    simp [getAISuggestions, hspan]
  · intro text span ho hspan hk
    subst ho
    simp [getAISuggestions, hspan, hk]
  · intro h
    simp [getCardInsights, h]

/-- Witness for C7 (amended): a missing key yields `none`. -/
theorem C7_witness :
    getAISuggestions (none : Option String) CallOutcome.failure
      (fun s : String => some s) = none :=
  (C7_absorbs_failures none CallOutcome.failure (fun s : String => some s)).1 rfl

/-- C8 counterexample: an undefined description is interpolated as the
literal token "undefined", which two otherwise-unrelated cards then share,
producing a related-card match of similarity exactly 0.2; with empty-string
descriptions instead, the same cards produce no match. -/
theorem C8_counterexample :
    findRelatedCards ⟨1, some "alpha beta", none, 10, none⟩
        [⟨2, some "gamma delta", none, 11, none⟩] 5 (1/5) =
      [{ card := { _id := 2, title := some "gamma delta", list := 11, dueDate := none },
         similarity := 1/5 }] ∧
    findRelatedCards ⟨1, some "alpha beta", some "", 10, none⟩
        [⟨2, some "gamma delta", some "", 11, none⟩] 5 (1/5) = [] := by
  constructor
  · have hj : jaccardSimilarity
        (extractWords (some (combinedText (some "alpha beta") none)))
        (extractWords (some (combinedText (some "gamma delta") none))) = 1/5 := by
      have h1 : ((extractWords (some (combinedText (some "alpha beta") none))) ∩
          (extractWords (some (combinedText (some "gamma delta") none)))).card = 1 := by decide
      have h2 : ((extractWords (some (combinedText (some "alpha beta") none))) ∪
          (extractWords (some (combinedText (some "gamma delta") none)))).card = 5 := by decide
      simp only [jaccardSimilarity, h1, h2]
      norm_num
    simp only [findRelatedCards]
    rw [if_neg (by decide), if_neg (by decide)]
    norm_num [List.filter_cons, List.map_cons, List.map_nil, List.filter_nil, cardSummaryOf]
    rw [hj]
    norm_num [sortBySimilarityDesc, insertDesc]
  · have hj : jaccardSimilarity
        (extractWords (some (combinedText (some "alpha beta") (some ""))))
        (extractWords (some (combinedText (some "gamma delta") (some ""))))= 0 := by
      have h1 : ((extractWords (some (combinedText (some "alpha beta") (some "")))) ∩
          (extractWords (some (combinedText (some "gamma delta") (some ""))))).card = 0 := by
        decide
      have h2 : ((extractWords (some (combinedText (some "alpha beta") (some "")))) ∪
          (extractWords (some (combinedText (some "gamma delta") (some ""))))).card = 4 := by
        decide
      simp only [jaccardSimilarity, h1, h2]
      norm_num
    simp only [findRelatedCards]
    rw [if_neg (by decide), if_neg (by decide)]
    norm_num [List.filter_cons, List.map_cons, List.map_nil, List.filter_nil, cardSummaryOf]
    rw [hj]
    norm_num [sortBySimilarityDesc, insertDesc]

/-- C8 (amended): the tokenizer and the date parser degrade gracefully on
undefined or empty text (empty set / no date), and no core operation can
raise an error (all are total functions); but in the combined-text
operations (`suggestListMovement`, `findRelatedCards`, `analyzeCard`) an
undefined title or description is interpolated as the literal string
"undefined" and behaves exactly like that text — it is NOT inert, and can
contribute the token "undefined" to similarity matching. -/
theorem C8_graceful_with_undefined (t : String) (nowDay : Int) (c : Card)
    (ls : List BoardList) :
    extractWords none = ∅ ∧ extractWords (some "") = ∅ ∧
    parseDateKeywords none nowDay = none ∧
    parseDateKeywords (some "") nowDay = none ∧
    combinedText none none = "undefined" ++ " " ++ "undefined" ∧
    combinedText (some t) none = t ++ " " ++ "undefined" ∧
    suggestListMovement { c with title := none, description := none } ls =
      suggestListMovement { c with title := some "undefined",
                                   description := some "undefined" } ls ∧
    ("undefined" : String) ∈ extractWords (some (combinedText (some "alpha beta") none)) :=
  ⟨rfl, rfl, rfl, rfl, rfl, rfl, rfl, by decide⟩
